import Mathlib

/-!
Verification of the `starknet_caller` program (`src/main.rs`).

The program reads configuration from environment variables, builds a
Starknet execution context and account, encodes a single `mint_lords`
contract call, submits it as one transaction, and prints the transaction
hash.  We embed the program shallowly: environment access and the network
round trip are abstracted into a `World` oracle, and `mainRun` mirrors the
statement-by-statement control flow of `main`, producing an observable
event trace, the broadcast outcome and the process exit code.

SDK functions that the program calls but whose source is not part of this
repository (`Felt::from_hex`, `get_selector_from_name`, the `{:#064x}`
field-element formatter) are modelled from the specification's description
of them; each such definition is marked `Modelled from the spec`.
-/

/-- A STARK field element, represented as a natural number.  The Rust
`Felt` type guarantees values below the STARK prime. -/
abbrev Felt := Nat

/-- The STARK prime `2^251 + 17 * 2^192 + 1`, the modulus of the field of
`Felt` values. -/
def STARK_PRIME : Nat := 2 ^ 251 + 17 * 2 ^ 192 + 1

/-- Lowercase hexadecimal digit character for a value below 16. -/
def hexDigitChar (d : Nat) : Char :=
  if d < 10 then Char.ofNat (48 + d) else Char.ofNat (87 + d)

/-- The `k` most significant base-16 digits of `h` (as characters, most
significant first): digit `i` of the output is `h / 16^(k-1-i) % 16`. -/
def hexDigitsBE : Nat → Nat → List Char
  | 0, _ => []
  | k + 1, h => hexDigitChar (h / 16 ^ k % 16) :: hexDigitsBE k h

/-- Modelled from the spec: the SDK's field-element formatter invoked by
`println!("Transaction hash: {:#064x}", ...)` (src/main.rs line 63); the
spec describes the output as a fixed-width, zero-padded lowercase
hexadecimal string prefixed with `0x`, exactly 64 hex digits. -/
def feltToHex64 (h : Felt) : String :=
  "0x" ++ String.mk (hexDigitsBE 64 h)

/-- The single stdout line printed by `main` on success
(src/main.rs line 63). -/
def txHashLine (h : Felt) : String :=
  "Transaction hash: " ++ feltToHex64 h

/-- Numeric value of a lowercase/uppercase hexadecimal digit character
(total function; garbage on non-hex characters). -/
def hexCharVal (c : Char) : Nat :=
  if 97 ≤ c.toNat then c.toNat - 87
  else if 65 ≤ c.toNat then c.toNat - 55
  else c.toNat - 48

/-- Value of a big-endian list of hexadecimal digit characters. -/
def hexValue (cs : List Char) : Nat :=
  cs.foldl (fun a c => a * 16 + hexCharVal c) 0

/-- The sixteen lowercase hexadecimal digit characters. -/
def hexLowerChars : List Char := "0123456789abcdef".data

/-- Numeric value of a hexadecimal digit character, or `none` if the
character is not a hexadecimal digit. -/
def hexCharVal? (c : Char) : Option Nat :=
  if 48 ≤ c.toNat ∧ c.toNat ≤ 57 then some (c.toNat - 48)
  else if 97 ≤ c.toNat ∧ c.toNat ≤ 102 then some (c.toNat - 87)
  else if 65 ≤ c.toNat ∧ c.toNat ≤ 70 then some (c.toNat - 55)
  else none

/-- Parse a big-endian list of hexadecimal digit characters, failing on
any non-hex character. -/
def parseHexNat? (cs : List Char) : Option Nat :=
  cs.foldl (fun acc c => acc.bind fun a => (hexCharVal? c).map fun v => a * 16 + v) (some 0)

/-- Modelled from the spec: `Felt::from_hex` from the SDK (not part of
this repository's sources); per the spec a required value is a "hex
string" that "must parse as a valid field element".  An optional `0x`
prefix is accepted; the body must be nonempty, all hexadecimal digits,
and denote a value below the STARK prime. -/
def feltFromHex (s : String) : Option Felt :=
  let body : List Char :=
    match s.data with
    | '0' :: 'x' :: rest => rest
    | cs => cs
  if body.isEmpty then none
  else
    match parseHexNat? body with
    | none => none
    | some n => if n < STARK_PRIME then some n else none

/-- Modulus of a 64-bit machine word, the lane width of Keccak-f[1600]. -/
def W64 : Nat := 2 ^ 64

/-- Left rotation of a 64-bit lane (`x < 2^64`, `n ≤ 63`). -/
def rotl64 (x n : Nat) : Nat :=
  ((x <<< n) % W64) ||| (x >>> (64 - n))

/-- Keccak rho-step rotation offset of the lane with flat index
`i = x + 5 * y`. -/
def rhoOffset (i : Nat) : Nat :=
  match i with
  | 0 => 0
  | 1 => 1
  | 2 => 62
  | 3 => 28
  | 4 => 27
  | 5 => 36
  | 6 => 44
  | 7 => 6
  | 8 => 55
  | 9 => 20
  | 10 => 3
  | 11 => 10
  | 12 => 43
  | 13 => 25
  | 14 => 39
  | 15 => 41
  | 16 => 45
  | 17 => 15
  | 18 => 21
  | 19 => 8
  | 20 => 18
  | 21 => 2
  | 22 => 61
  | 23 => 56
  | _ => 14

/-- Keccak-f[1600] round constant of round `i`. -/
def keccakRCAt (i : Nat) : Nat :=
  match i with
  | 0 => 0x1
  | 1 => 0x8082
  | 2 => 0x800000000000808a
  | 3 => 0x8000000080008000
  | 4 => 0x808b
  | 5 => 0x80000001
  | 6 => 0x8000000080008081
  | 7 => 0x8000000000008009
  | 8 => 0x8a
  | 9 => 0x88
  | 10 => 0x80008009
  | 11 => 0x8000000a
  | 12 => 0x8000808b
  | 13 => 0x800000000000008b
  | 14 => 0x8000000000008089
  | 15 => 0x8000000000008003
  | 16 => 0x8000000000008002
  | 17 => 0x8000000000000080
  | 18 => 0x800a
  | 19 => 0x800000008000000a
  | 20 => 0x8000000080008081
  | 21 => 0x8000000000008080
  | 22 => 0x80000001
  | _ => 0x8000000080008008

/-- The 24 Keccak-f[1600] round constants in round order. -/
def keccakRC : List Nat :=
  (List.range 24).map keccakRCAt

/-- Keccak theta step on a 25-lane state. -/
def keccakTheta (A : List Nat) : List Nat :=
  let C := (List.range 5).map fun x =>
    A.getD x 0 ^^^ A.getD (x + 5) 0 ^^^ A.getD (x + 10) 0 ^^^ A.getD (x + 15) 0 ^^^ A.getD (x + 20) 0
  let D := (List.range 5).map fun x =>
    C.getD ((x + 4) % 5) 0 ^^^ rotl64 (C.getD ((x + 1) % 5) 0) 1
  (List.range 25).map fun i => A.getD i 0 ^^^ D.getD (i % 5) 0

/-- Keccak rho and pi steps combined: output lane `(x', y')` is the source
lane `(x, y)` with `y = x'` and `x = 3 * (y' + 2 * y) mod 5`, rotated by
its rho offset. -/
def keccakRhoPi (A : List Nat) : List Nat :=
  (List.range 25).map fun j =>
    let y := j % 5
    let x := (3 * (j / 5 + 2 * y)) % 5
    let i := x + 5 * y
    rotl64 (A.getD i 0) (rhoOffset i)

/-- Keccak chi step. -/
def keccakChi (B : List Nat) : List Nat :=
  (List.range 25).map fun j =>
    let x := j % 5
    let y := j / 5
    B.getD j 0 ^^^ ((B.getD ((x + 1) % 5 + 5 * y) 0 ^^^ (W64 - 1)) &&& B.getD ((x + 2) % 5 + 5 * y) 0)

/-- One Keccak-f[1600] round: theta, rho, pi, chi, iota. -/
def keccakRound (A : List Nat) (rc : Nat) : List Nat :=
  let B := keccakChi (keccakRhoPi (keccakTheta A))
  B.set 0 (B.getD 0 0 ^^^ rc)

/-- The full 24-round Keccak-f[1600] permutation. -/
def keccakF (A : List Nat) : List Nat :=
  keccakRC.foldl keccakRound A

/-- A little-endian byte list interpreted as a 64-bit lane. -/
def bytesToLaneLE (bs : List Nat) : Nat :=
  bs.foldr (fun b acc => acc * 256 + b) 0

/-- Absorb one 136-byte rate block into the sponge state and permute. -/
def absorbBlock (st block : List Nat) : List Nat :=
  keccakF ((List.range 25).map fun i =>
    st.getD i 0 ^^^ (if i < 17 then bytesToLaneLE ((block.drop (8 * i)).take 8) else 0))

/-- Absorb successive 136-byte blocks; the first argument is fuel (the
number of blocks), keeping the recursion structural. -/
def absorbChunks : Nat → List Nat → List Nat → List Nat
  | 0, st, _ => st
  | _ + 1, st, [] => st
  | n + 1, st, bs => absorbChunks n (absorbBlock st (bs.take 136)) (bs.drop 136)

/-- Original Keccak multi-rate padding (domain byte `0x01`, final `0x80`)
to a multiple of the 136-byte rate. -/
def padKeccak (msg : List Nat) : List Nat :=
  let r := 136 - msg.length % 136
  if r = 1 then msg ++ [0x81]
  else msg ++ 0x01 :: (List.replicate (r - 2) 0 ++ [0x80])

/-- The eight little-endian bytes of a 64-bit lane. -/
def laneBytesLE (x : Nat) : List Nat :=
  (List.range 8).map fun i => x >>> (8 * i) % 256

/-- Keccak-256 of a byte string, as the big-endian value of its 32-byte
digest. -/
def keccak256 (msg : List Nat) : Nat :=
  let padded := padKeccak msg
  let st := absorbChunks (padded.length / 136) (List.replicate 25 0) padded
  ((st.take 4).foldr (fun l acc => laneBytesLE l ++ acc) []).foldl (fun acc b => acc * 256 + b) 0

/-- Modelled from the spec: the standard deterministic name-to-selector
hash of the Starknet network (`starknet_keccak`), SDK code not part of
this repository's sources: the Keccak-256 digest of the name's ASCII
bytes, truncated to its low 250 bits. -/
def starknet_keccak (s : String) : Nat :=
  keccak256 (s.data.map Char.toNat) % 2 ^ 250

/-- Modelled from the spec: `get_selector_from_name` from the SDK (not
part of this repository's sources); per the spec it resolves a function
name to a numeric selector with the standard deterministic hash and "does
not [fail], for any syntactically valid ASCII identifier"; non-ASCII
names are rejected. -/
def get_selector_from_name (name : String) : Except String Felt :=
  if name.data.all (fun c => c.toNat < 128) then Except.ok (starknet_keccak name)
  else Except.error "the name contains non-ASCII characters"

/-- The chain identifier constant `chain_id::SEPOLIA`: the big-endian
bytes of the short string `"SN_SEPOLIA"`. -/
def SEPOLIA : Felt := 0x534e5f5345504f4c4941

/-- The HTTP transport of the JSON-RPC client, holding the endpoint URL
string (`HttpTransport::new(url)`). -/
structure HttpTransport where
  url : String
deriving DecidableEq

/-- The JSON-RPC provider (`JsonRpcClient::new(transport)`). -/
structure JsonRpcClient where
  transport : HttpTransport
deriving DecidableEq

/-- A signing key built from a secret scalar
(`SigningKey::from_secret_scalar`). -/
structure SigningKey where
  secret_scalar : Felt
deriving DecidableEq

/-- A local wallet wrapping a signing key (`LocalWallet::from`). -/
structure LocalWallet where
  key : SigningKey
deriving DecidableEq

/-- `StarknetContext` (src/main.rs lines 17-24): provider, signer and
account address bundled for interacting with Starknet. -/
structure StarknetContext where
  provider : JsonRpcClient
  signer : LocalWallet
  address : Felt
deriving DecidableEq

/-- The SDK's calldata encoding mode (`ExecutionEncoding`). -/
inductive ExecutionEncoding where
  | Legacy
  | New
deriving DecidableEq

/-- `SingleOwnerAccount` as constructed by `SingleOwnerAccount::new`
(provider, signer, address, chain id, encoding). -/
structure SingleOwnerAccount where
  provider : JsonRpcClient
  signer : LocalWallet
  address : Felt
  chain_id : Felt
  encoding : ExecutionEncoding
deriving DecidableEq

/-- A `Call` invocation descriptor: target contract, entry-point
selector, and positional calldata (src/main.rs lines 55-59). -/
structure Call where
  «to» : Felt
  selector : Felt
  calldata : List Felt
deriving DecidableEq

deriving instance DecidableEq for Except

/-- The result of a successful `execute_v3(...).send()`. -/
structure InvokeTransactionResult where
  transaction_hash : Felt
deriving DecidableEq

/-- Observable events of one run: environment reads, account
construction, call-list encoding, a network submission, and a line
printed to stdout.  The order of events mirrors the statement order of
`main`. -/
inductive Event where
  | envRead (name : String)
  | accountBuilt
  | callEncoded (calls : List Call)
  | networkSend (calls : List Call)
  | printLine (line : String)
deriving DecidableEq

/-- The external collaborators of one run: the process environment, the
URL parser of the SDK, and the network's response to a signed
submission.  All are fixed for the duration of the run. -/
structure World where
  env : String → Option String
  urlValid : String → Bool
  send : SingleOwnerAccount → List Call → Except String Felt

/-- The observable outcome of a run: its event trace, the broadcast
outcome (`none` when the run dies before submitting), and the process
exit code (0 on success, 101 for a Rust panic). -/
structure RunOutcome where
  trace : List Event
  broadcast : Option (Except String Felt)
  exitCode : Nat
deriving DecidableEq

/-- `starknet_call_context` (src/main.rs lines 120-142): reads
`STARKNET_RPC_URL`, `STARKNET_PRIVATE_KEY` and
`STARKNET_ACCOUNT_ADDRESS` in that order, parses them, and builds the
context; any missing variable or failed parse panics at that point
(`expect` / `unwrap`), so the result is `none` and the trace stops at
the failing read. -/
def starknet_call_context (w : World) : List Event × Option StarknetContext :=
  match w.env "STARKNET_RPC_URL" with
  | none => ([Event.envRead "STARKNET_RPC_URL"], none)
  | some urlStr =>
    if w.urlValid urlStr then
      match w.env "STARKNET_PRIVATE_KEY" with
      | none => ([Event.envRead "STARKNET_RPC_URL", Event.envRead "STARKNET_PRIVATE_KEY"], none)
      | some keyStr =>
        match feltFromHex keyStr with
        | none => ([Event.envRead "STARKNET_RPC_URL", Event.envRead "STARKNET_PRIVATE_KEY"], none)
        | some secret =>
          match w.env "STARKNET_ACCOUNT_ADDRESS" with
          | none =>
            ([Event.envRead "STARKNET_RPC_URL", Event.envRead "STARKNET_PRIVATE_KEY",
              Event.envRead "STARKNET_ACCOUNT_ADDRESS"], none)
          | some addrStr =>
            match feltFromHex addrStr with
            | none =>
              ([Event.envRead "STARKNET_RPC_URL", Event.envRead "STARKNET_PRIVATE_KEY",
                Event.envRead "STARKNET_ACCOUNT_ADDRESS"], none)
            | some address =>
              ([Event.envRead "STARKNET_RPC_URL", Event.envRead "STARKNET_PRIVATE_KEY",
                Event.envRead "STARKNET_ACCOUNT_ADDRESS"],
               some { provider := { transport := { url := urlStr } },
                      signer := { key := { secret_scalar := secret } },
                      address := address })
    else ([Event.envRead "STARKNET_RPC_URL"], none)

/-- `starknet_account` (src/main.rs lines 156-165): plain composition of
its four arguments with the encoding fixed to `ExecutionEncoding::New`.
It performs no I/O and has no failure path. -/
def starknet_account (provider : JsonRpcClient) (signer : LocalWallet)
    (address : Felt) (chain_id : Felt) : SingleOwnerAccount :=
  { provider := provider, signer := signer, address := address,
    chain_id := chain_id, encoding := ExecutionEncoding.New }

/-- `starknet_call` (src/main.rs lines 95-102): one
`account.execute_v3(call).send()` of the whole call list, whose network
outcome is the world's response; `unwrap` panics on a send error. -/
def starknet_call (w : World) (account : SingleOwnerAccount) (call : List Call) :
    List Event × Except String InvokeTransactionResult :=
  ([Event.networkSend call],
   match w.send account call with
   | Except.ok h => Except.ok { transaction_hash := h }
   | Except.error e => Except.error e)

/-- `main` (src/main.rs lines 40-64), statement by statement: build the
context (panicking on any failure), build the account for the Sepolia
chain, read and parse `STARKNET_CONTRACT_ADDRESS` (panicking on a
missing variable or bad hex), resolve the `mint_lords` selector
(`unwrap`), build the single-element call list, submit it once through
`starknet_call` (panicking on a send error), and print the formatted
transaction hash. -/
def mainRun (w : World) : RunOutcome :=
  let ctxTrace := (starknet_call_context w).1
  match (starknet_call_context w).2 with
  | none => { trace := ctxTrace, broadcast := none, exitCode := 101 }
  | some context =>
    let account := starknet_account context.provider context.signer context.address SEPOLIA
    let trace1 := ctxTrace ++ [Event.accountBuilt, Event.envRead "STARKNET_CONTRACT_ADDRESS"]
    match w.env "STARKNET_CONTRACT_ADDRESS" with
    | none => { trace := trace1, broadcast := none, exitCode := 101 }
    | some contractStr =>
      match feltFromHex contractStr with
      | none => { trace := trace1, broadcast := none, exitCode := 101 }
      | some contract_address =>
        match get_selector_from_name "mint_lords" with
        | Except.error _ => { trace := trace1, broadcast := none, exitCode := 101 }
        | Except.ok selector =>
          let call := [{ «to» := contract_address, selector := selector, calldata := [] : Call }]
          let trace2 := trace1 ++ [Event.callEncoded call]
          let sendTrace := (starknet_call w account call).1
          match (starknet_call w account call).2 with
          | Except.error e =>
            { trace := trace2 ++ sendTrace, broadcast := some (Except.error e), exitCode := 101 }
          | Except.ok result =>
            { trace := trace2 ++ sendTrace ++ [Event.printLine (txHashLine result.transaction_hash)],
              broadcast := some (Except.ok result.transaction_hash), exitCode := 0 }

/-- The lines a trace prints to stdout, in order. -/
def stdoutOf (tr : List Event) : List String :=
  tr.filterMap fun e =>
    match e with
    | Event.printLine s => some s
    | _ => none

/-- The payloads of the network submissions in a trace, in order. -/
def sendsOf (tr : List Event) : List (List Call) :=
  tr.filterMap fun e =>
    match e with
    | Event.networkSend c => some c
    | _ => none

/-- The environment has a present, well-formed `STARKNET_RPC_URL`. -/
def urlOk (w : World) : Prop :=
  ∃ u, w.env "STARKNET_RPC_URL" = some u ∧ w.urlValid u = true

/-- The environment has a present, valid `STARKNET_PRIVATE_KEY`. -/
def keyOk (w : World) : Prop :=
  ∃ s v, w.env "STARKNET_PRIVATE_KEY" = some s ∧ feltFromHex s = some v

/-- The environment has a present, valid `STARKNET_ACCOUNT_ADDRESS`. -/
def addrOk (w : World) : Prop :=
  ∃ s v, w.env "STARKNET_ACCOUNT_ADDRESS" = some s ∧ feltFromHex s = some v

/-- The environment has a present, valid `STARKNET_CONTRACT_ADDRESS`. -/
def contractOk (w : World) : Prop :=
  ∃ s v, w.env "STARKNET_CONTRACT_ADDRESS" = some s ∧ feltFromHex s = some v

/-- Some environment-sourced value is missing or malformed. -/
def configFailure (w : World) : Prop :=
  ¬urlOk w ∨ ¬keyOk w ∨ ¬addrOk w ∨ ¬contractOk w

/-- A finite environment given as an association list. -/
def envOf (l : List (String × String)) : String → Option String :=
  fun n => (l.find? fun p => p.1 = n).map Prod.snd

/-- A world matching the spec's end-to-end scenario: stub endpoint,
secret `0x1`, account `0x2`, contract `0x3`, network accepting with
transaction hash `0x4`. -/
def wAllValid : World :=
  { env := envOf [("STARKNET_RPC_URL", "https://stub.local/rpc"),
                  ("STARKNET_PRIVATE_KEY", "0x1"),
                  ("STARKNET_ACCOUNT_ADDRESS", "0x2"),
                  ("STARKNET_CONTRACT_ADDRESS", "0x3")],
    urlValid := fun _ => true,
    send := fun _ _ => Except.ok 4 }

/-- A world with an empty environment. -/
def wEmpty : World :=
  { env := fun _ => none,
    urlValid := fun _ => false,
    send := fun _ _ => Except.error "unreachable" }

/-- A world with a valid context but a malformed contract address. -/
def wBadContract : World :=
  { wAllValid with
    env := envOf [("STARKNET_RPC_URL", "https://stub.local/rpc"),
                  ("STARKNET_PRIVATE_KEY", "0x1"),
                  ("STARKNET_ACCOUNT_ADDRESS", "0x2"),
                  ("STARKNET_CONTRACT_ADDRESS", "zz")] }

/-- A world whose network rejects the broadcast. -/
def wSendFail : World :=
  { wAllValid with send := fun _ _ => Except.error "node rejected the transaction" }

/-- A world identical to `wAllValid` except for a different private
secret scalar. -/
def wOtherSecret : World :=
  { wAllValid with
    env := envOf [("STARKNET_RPC_URL", "https://stub.local/rpc"),
                  ("STARKNET_PRIVATE_KEY", "0x1234abcd"),
                  ("STARKNET_ACCOUNT_ADDRESS", "0x2"),
                  ("STARKNET_CONTRACT_ADDRESS", "0x3")] }

/-- The single-element call list `main` builds: target contract address,
the `mint_lords` selector, empty calldata (src/main.rs lines 55-59). -/
def mintCall (contract_address : Felt) : List Call :=
  [{ «to» := contract_address,
     selector := 0x3059098e39fbb607bc96a8075eb4d17197c3a6c797c166470997571e6fa5b17,
     calldata := [] }]

set_option maxRecDepth 10000 in
/-- The `mint_lords` selector computed by the standard hash: a closed
evaluation of the Keccak-based name-to-selector function. -/
theorem selector_mint_lords :
    get_selector_from_name "mint_lords" =
      Except.ok 0x3059098e39fbb607bc96a8075eb4d17197c3a6c797c166470997571e6fa5b17 := by
  decide

/-- The fixed-width digit list always has exactly `k` digits. -/
theorem length_hexDigitsBE (k h : Nat) : (hexDigitsBE k h).length = k := by
  induction k with
  | zero => rfl
  | succ k ih => simp [hexDigitsBE, ih]

/-- Every digit value below 16 renders as a lowercase hex character. -/
theorem hexDigitChar_mem : ∀ d < 16, hexDigitChar d ∈ hexLowerChars := by
  decide

/-- All characters of the fixed-width rendering are lowercase hex. -/
theorem mem_hexDigitsBE (k h : Nat) : ∀ c ∈ hexDigitsBE k h, c ∈ hexLowerChars := by
  induction k with
  | zero => simp [hexDigitsBE]
  | succ k ih =>
    intro c hc
    rcases List.mem_cons.mp hc with h1 | h2
    · subst h1; exact hexDigitChar_mem _ (Nat.mod_lt _ (by norm_num))
    · exact ih c h2

/-- Rendering a digit and reading it back is the identity below 16. -/
theorem hexCharVal_hexDigitChar : ∀ d < 16, hexCharVal (hexDigitChar d) = d := by
  decide

/-- Folding the digit values of the fixed-width rendering recovers the
number modulo `16^k`. -/
theorem hexValue_foldl (k : Nat) : ∀ a h : Nat,
    (hexDigitsBE k h).foldl (fun a c => a * 16 + hexCharVal c) a = a * 16 ^ k + h % 16 ^ k := by
  induction k with
  | zero => intro a h; simp [hexDigitsBE, Nat.mod_one]
  | succ k ih =>
    intro a h
    simp only [hexDigitsBE, List.foldl_cons]
    rw [hexCharVal_hexDigitChar _ (Nat.mod_lt _ (by norm_num)), ih]
    rw [pow_succ, Nat.mod_mul]
    ring

/-- The 64-digit rendering of a value below `16^64` reads back to the
same value. -/
theorem hexValue_hexDigitsBE (h : Nat) (hlt : h < 16 ^ 64) :
    hexValue (hexDigitsBE 64 h) = h := by
  unfold hexValue
  rw [hexValue_foldl, Nat.zero_mul, Nat.zero_add, Nat.mod_eq_of_lt hlt]

/-- The characters of the formatted field element: the `0x` prefix
followed by the 64 fixed-width digits. -/
theorem feltToHex64_data (h : Nat) :
    (feltToHex64 h).data = '0' :: 'x' :: hexDigitsBE 64 h := rfl

/-- The formatted field element is always 66 characters long
(`0x` plus exactly 64 digits). -/
theorem feltToHex64_length (h : Nat) : (feltToHex64 h).length = 66 := by
  have h1 : (feltToHex64 h).length = (feltToHex64 h).data.length := rfl
  rw [h1, feltToHex64_data]
  simp [length_hexDigitsBE]

/-- Context assembly prints nothing. -/
theorem ctx_trace_stdout (w : World) : stdoutOf (starknet_call_context w).1 = [] := by
  unfold starknet_call_context
  repeat' split
  all_goals rfl

/-- Context assembly performs no network submission. -/
theorem ctx_trace_sends (w : World) : sendsOf (starknet_call_context w).1 = [] := by
  unfold starknet_call_context
  repeat' split
  all_goals rfl

/-- Printed lines split over trace concatenation. -/
theorem stdoutOf_append (a b : List Event) : stdoutOf (a ++ b) = stdoutOf a ++ stdoutOf b := by
  simp [stdoutOf]

/-- Submission payloads split over trace concatenation. -/
theorem sendsOf_append (a b : List Event) : sendsOf (a ++ b) = sendsOf a ++ sendsOf b := by
  simp [sendsOf]

/-- Every run ends in one of exactly three shapes: a fatal configuration
failure with no submission and no output, a fatal submission failure with
exactly one submission and no output, or a success with exactly one
submission and exactly the transaction-hash line on stdout. -/
theorem mainRun_shape (w : World) :
    ((mainRun w).broadcast = none ∧ (mainRun w).exitCode = 101 ∧
      sendsOf (mainRun w).trace = [] ∧ stdoutOf (mainRun w).trace = [])
    ∨ (∃ e ca, (mainRun w).broadcast = some (Except.error e) ∧ (mainRun w).exitCode = 101 ∧
      sendsOf (mainRun w).trace = [mintCall ca] ∧ stdoutOf (mainRun w).trace = [])
    ∨ (∃ h ca, (mainRun w).broadcast = some (Except.ok h) ∧ (mainRun w).exitCode = 0 ∧
      sendsOf (mainRun w).trace = [mintCall ca] ∧ stdoutOf (mainRun w).trace = [txHashLine h]) := by
  unfold mainRun
  cases hctx : (starknet_call_context w).2 with
  | none =>
    dsimp only
    left
    exact ⟨rfl, rfl, ctx_trace_sends w, ctx_trace_stdout w⟩
  | some context =>
    dsimp only
    cases hca : w.env "STARKNET_CONTRACT_ADDRESS" with
    | none =>
      dsimp only
      left
      refine ⟨rfl, rfl, ?_, ?_⟩
      · simp only [sendsOf_append, ctx_trace_sends w]; rfl
      · simp only [stdoutOf_append, ctx_trace_stdout w]; rfl
    | some contractStr =>
      dsimp only
      cases hfa : feltFromHex contractStr with
      | none =>
        dsimp only
        left
        refine ⟨rfl, rfl, ?_, ?_⟩
        · simp only [sendsOf_append, ctx_trace_sends w]; rfl
        · simp only [stdoutOf_append, ctx_trace_stdout w]; rfl
      | some contract_address =>
        rw [selector_mint_lords]
        dsimp only [starknet_call]
        cases hsend : w.send
            (starknet_account context.provider context.signer context.address SEPOLIA)
            [{ «to» := contract_address,
               selector := 0x3059098e39fbb607bc96a8075eb4d17197c3a6c797c166470997571e6fa5b17,
               calldata := [] }] with
        | error e =>
          dsimp only
          right; left
          refine ⟨e, contract_address, rfl, rfl, ?_, ?_⟩
          · simp only [sendsOf_append, ctx_trace_sends w]; rfl
          · simp only [stdoutOf_append, ctx_trace_stdout w]; rfl
        | ok h =>
          dsimp only
          right; right
          refine ⟨h, contract_address, rfl, rfl, ?_, ?_⟩
          · simp only [sendsOf_append, ctx_trace_sends w]; rfl
          · simp only [stdoutOf_append, ctx_trace_stdout w]; rfl

/-- What a run prints is a function of its broadcast outcome alone: the
transaction-hash line on a successful broadcast, nothing otherwise. -/
theorem stdoutOf_eq_of_broadcast (w : World) :
    stdoutOf (mainRun w).trace =
      (match (mainRun w).broadcast with
       | some (Except.ok h) => [txHashLine h]
       | _ => []) := by
  rcases mainRun_shape w with ⟨hb, -, -, hs⟩ | ⟨e, ca, hb, -, -, hs⟩ | ⟨h, ca, hb, -, -, hs⟩ <;>
    rw [hb, hs]

/-- A submission event's payload is among the trace's submission
payloads. -/
theorem mem_sendsOf (tr : List Event) (c : List Call)
    (h : Event.networkSend c ∈ tr) : c ∈ sendsOf tr :=
  List.mem_filterMap.mpr ⟨Event.networkSend c, h, rfl⟩

/-- Context assembly succeeds exactly when all three of its
environment-sourced inputs are present and valid. -/
theorem ctx_isSome_iff (w : World) :
    (starknet_call_context w).2.isSome = true ↔ urlOk w ∧ keyOk w ∧ addrOk w := by
  rcases hu : w.env "STARKNET_RPC_URL" with - | u
  · simp [starknet_call_context, hu, urlOk]
  · cases hv : w.urlValid u with
    | false => simp [starknet_call_context, hu, hv, urlOk]
    | true =>
      rcases hk : w.env "STARKNET_PRIVATE_KEY" with - | k
      · simp [starknet_call_context, hu, hv, hk, urlOk, keyOk]
      · rcases hkf : feltFromHex k with - | kv
        · simp [starknet_call_context, hu, hv, hk, hkf, urlOk, keyOk]
        · rcases ha : w.env "STARKNET_ACCOUNT_ADDRESS" with - | a
          · simp [starknet_call_context, hu, hv, hk, hkf, ha, urlOk, keyOk, addrOk]
          · rcases haf : feltFromHex a with - | av
            · simp [starknet_call_context, hu, hv, hk, hkf, ha, haf, urlOk, keyOk, addrOk]
            · simp [starknet_call_context, hu, hv, hk, hkf, ha, haf, urlOk, keyOk, addrOk]

/-- On fully valid inputs, context assembly returns the complete context
holding exactly the three parsed components, after exactly the three
environment reads. -/
theorem ctx_result_of_valid (w : World) (u k a : String) (kv av : Felt)
    (hu : w.env "STARKNET_RPC_URL" = some u) (hv : w.urlValid u = true)
    (hk : w.env "STARKNET_PRIVATE_KEY" = some k) (hkf : feltFromHex k = some kv)
    (ha : w.env "STARKNET_ACCOUNT_ADDRESS" = some a) (haf : feltFromHex a = some av) :
    starknet_call_context w =
      ([Event.envRead "STARKNET_RPC_URL", Event.envRead "STARKNET_PRIVATE_KEY",
        Event.envRead "STARKNET_ACCOUNT_ADDRESS"],
       some { provider := { transport := { url := u } },
              signer := { key := { secret_scalar := kv } },
              address := av }) := by
  simp [starknet_call_context, hu, hv, hk, hkf, ha, haf]

/-- On fully valid inputs the run always reaches the network: the
broadcast outcome exists (whatever the network answers). -/
theorem mainRun_broadcast_of_valid (w : World) (hu : urlOk w) (hk : keyOk w)
    (ha : addrOk w) (hcon : contractOk w) : ∃ r, (mainRun w).broadcast = some r := by
  obtain ⟨u, hu1, hu2⟩ := hu
  obtain ⟨k, kv, hk1, hk2⟩ := hk
  obtain ⟨a, av, ha1, ha2⟩ := ha
  obtain ⟨ca, cv, hca, hcf⟩ := hcon
  have hctx := ctx_result_of_valid w u k a kv av hu1 hu2 hk1 hk2 ha1 ha2
  unfold mainRun
  rw [hctx]
  dsimp only
  rw [hca]
  dsimp only
  rw [hcf]
  dsimp only
  rw [selector_mint_lords]
  dsimp only [starknet_call]
  cases hsend : w.send
      (starknet_account { transport := { url := u } } { key := { secret_scalar := kv } } av SEPOLIA)
      [{ «to» := cv,
         selector := 0x3059098e39fbb607bc96a8075eb4d17197c3a6c797c166470997571e6fa5b17,
         calldata := [] }] with
  | error e => exact ⟨Except.error e, rfl⟩
  | ok h => exact ⟨Except.ok h, rfl⟩

/-- The run dies before submitting exactly when some environment-sourced
input is missing or malformed. -/
theorem broadcast_none_iff (w : World) :
    (mainRun w).broadcast = none ↔ ¬(urlOk w ∧ keyOk w ∧ addrOk w ∧ contractOk w) := by
  constructor
  · intro hn hall
    obtain ⟨r, hr⟩ := mainRun_broadcast_of_valid w hall.1 hall.2.1 hall.2.2.1 hall.2.2.2
    rw [hn] at hr
    exact Option.noConfusion hr
  · intro hnall
    cases hctx : (starknet_call_context w).2 with
    | none =>
      unfold mainRun
      rw [hctx]
    | some context =>
      have hctxOk := (ctx_isSome_iff w).mp (by rw [hctx]; rfl)
      rcases hca : w.env "STARKNET_CONTRACT_ADDRESS" with - | ca
      · unfold mainRun
        rw [hctx]
        dsimp only
        rw [hca]
      · rcases hcf : feltFromHex ca with - | cv
        · unfold mainRun
          rw [hctx]
          dsimp only
          rw [hca]
          dsimp only
          rw [hcf]
        · exact absurd ⟨hctxOk.1, hctxOk.2.1, hctxOk.2.2, ca, cv, hca, hcf⟩ hnall

/-- Claim C1: on successful submission the program prints the transaction
identifier on a single stdout line, as a lowercase hexadecimal string
prefixed with `0x` and zero-padded to exactly 64 hex digits regardless of
the identifier's magnitude, and the digits denote exactly the
identifier. -/
theorem claim_C1 (w : World) (h : Felt)
    (hb : (mainRun w).broadcast = some (Except.ok h)) (hp : h < STARK_PRIME) :
    stdoutOf (mainRun w).trace = [txHashLine h]
    ∧ txHashLine h = "Transaction hash: " ++ feltToHex64 h
    ∧ (feltToHex64 h).length = 66
    ∧ (feltToHex64 h).data.take 2 = ['0', 'x']
    ∧ ((feltToHex64 h).data.drop 2).length = 64
    ∧ (∀ c ∈ (feltToHex64 h).data.drop 2, c ∈ hexLowerChars)
    ∧ hexValue ((feltToHex64 h).data.drop 2) = h := by
  have hstd : stdoutOf (mainRun w).trace = [txHashLine h] := by
    have hm := stdoutOf_eq_of_broadcast w
    rw [hb] at hm
    exact hm
  have hdrop : (feltToHex64 h).data.drop 2 = hexDigitsBE 64 h := by
    rw [feltToHex64_data]
    rfl
  have hlt : h < 16 ^ 64 := lt_of_lt_of_le hp (by norm_num [STARK_PRIME])
  refine ⟨hstd, rfl, feltToHex64_length h, ?_, ?_, ?_, ?_⟩
  · rw [feltToHex64_data]
    rfl
  · rw [hdrop, length_hexDigitsBE]
  · rw [hdrop]; exact mem_hexDigitsBE 64 h
  · rw [hdrop]; exact hexValue_hexDigitsBE h hlt

set_option maxRecDepth 10000 in
/-- Witness for C1: the spec's end-to-end scenario, transaction hash `0x4`
printed with 63 leading zeros. -/
theorem claim_C1_witness :
    stdoutOf (mainRun wAllValid).trace =
      ["Transaction hash: 0x0000000000000000000000000000000000000000000000000000000000000004"]
    ∧ hexValue ((feltToHex64 4).data.drop 2) = 4 := by
  have h := claim_C1 wAllValid 4 (by rfl) (by norm_num [STARK_PRIME])
  refine ⟨?_, h.2.2.2.2.2.2⟩
  rw [h.1]
  rfl

/-- Claim C2: resolving the function name `"mint_lords"` succeeds and is
a pure function of the name, returning the one fixed 250-bit (hence
256-bit field-element) selector value computed by the standard
name-to-selector hash. -/
theorem claim_C2 :
    get_selector_from_name "mint_lords" =
      Except.ok 0x3059098e39fbb607bc96a8075eb4d17197c3a6c797c166470997571e6fa5b17
    ∧ starknet_keccak "mint_lords" =
      0x3059098e39fbb607bc96a8075eb4d17197c3a6c797c166470997571e6fa5b17
    ∧ (0x3059098e39fbb607bc96a8075eb4d17197c3a6c797c166470997571e6fa5b17 : Nat) < 2 ^ 250
    ∧ (0x3059098e39fbb607bc96a8075eb4d17197c3a6c797c166470997571e6fa5b17 : Nat) < STARK_PRIME := by
  have h2 : get_selector_from_name "mint_lords" = Except.ok (starknet_keccak "mint_lords") := by
    unfold get_selector_from_name
    rw [if_pos (by decide)]
  rw [selector_mint_lords] at h2
  exact ⟨selector_mint_lords, (Except.ok.inj h2).symm, by norm_num, by norm_num [STARK_PRIME]⟩

/-- Claim C3: context assembly is all-or-nothing: it succeeds exactly
when the endpoint URL, secret scalar and account address are all present
and valid, in which case it returns the complete context of the three
parsed components; otherwise it returns nothing and the run terminates
fatally without output. -/
theorem claim_C3 (w : World) :
    ((starknet_call_context w).2.isSome = true ↔ urlOk w ∧ keyOk w ∧ addrOk w)
    ∧ (∀ u k a kv av,
        w.env "STARKNET_RPC_URL" = some u → w.urlValid u = true →
        w.env "STARKNET_PRIVATE_KEY" = some k → feltFromHex k = some kv →
        w.env "STARKNET_ACCOUNT_ADDRESS" = some a → feltFromHex a = some av →
        (starknet_call_context w).2 =
          some { provider := { transport := { url := u } },
                 signer := { key := { secret_scalar := kv } },
                 address := av })
    ∧ ((starknet_call_context w).2 = none →
        (mainRun w).exitCode = 101 ∧ (mainRun w).broadcast = none ∧
          stdoutOf (mainRun w).trace = []) := by
  refine ⟨ctx_isSome_iff w, ?_, ?_⟩
  · intro u k a kv av hu hv hk hkf ha haf
    rw [ctx_result_of_valid w u k a kv av hu hv hk hkf ha haf]
  · intro hnone
    unfold mainRun
    rw [hnone]
    dsimp only
    exact ⟨rfl, rfl, ctx_trace_stdout w⟩

/-- Witness for C3: the valid stub environment yields the complete
context; the empty environment terminates fatally with no output. -/
theorem claim_C3_witness :
    (starknet_call_context wAllValid).2 =
      some { provider := { transport := { url := "https://stub.local/rpc" } },
             signer := { key := { secret_scalar := 1 } },
             address := 2 }
    ∧ ((mainRun wEmpty).exitCode = 101 ∧ (mainRun wEmpty).broadcast = none ∧
        stdoutOf (mainRun wEmpty).trace = []) :=
  ⟨(claim_C3 wAllValid).2.1 "https://stub.local/rpc" "0x1" "0x2" 1 2 rfl rfl rfl (by rfl)
      rfl (by rfl),
   (claim_C3 wEmpty).2.2 (by rfl)⟩

/-- Claim C4: whenever any environment-sourced value is missing or
malformed, the run terminates fatally before performing any network
call: nonzero exit, no broadcast, and no submission event in the
trace. -/
theorem claim_C4 (w : World) (hf : configFailure w) :
    (mainRun w).exitCode ≠ 0 ∧ (mainRun w).broadcast = none ∧
      sendsOf (mainRun w).trace = [] ∧
      ∀ c, Event.networkSend c ∉ (mainRun w).trace := by
  have hnone : (mainRun w).broadcast = none := by
    rw [broadcast_none_iff w]
    rintro ⟨h1, h2, h3, h4⟩
    rcases hf with h | h | h | h
    exacts [h h1, h h2, h h3, h h4]
  rcases mainRun_shape w with ⟨-, he, hs, -⟩ | ⟨e, ca, hb, -, -, -⟩ | ⟨h, ca, hb, -, -, -⟩
  · refine ⟨by rw [he]; norm_num, hnone, hs, ?_⟩
    intro c hc
    have hmem := mem_sendsOf _ _ hc
    rw [hs] at hmem
    exact List.not_mem_nil c hmem
  · rw [hnone] at hb; exact Option.noConfusion hb
  · rw [hnone] at hb; exact Option.noConfusion hb

/-- Witness for C4: the empty environment terminates fatally with no
submission. -/
theorem claim_C4_witness :
    (mainRun wEmpty).exitCode ≠ 0 ∧ (mainRun wEmpty).broadcast = none ∧
      sendsOf (mainRun wEmpty).trace = [] := by
  have h := claim_C4 wEmpty (Or.inl (by simp [urlOk, wEmpty]))
  exact ⟨h.1, h.2.1, h.2.2.1⟩

/-- Claim C5: account construction is pure total composition: for every
provider, signer, address and chain identifier it returns the account
made of exactly those components, and the calldata encoding mode is
always the fixed current/default scheme `ExecutionEncoding.New`. -/
theorem claim_C5 (provider : JsonRpcClient) (signer : LocalWallet)
    (address chain_id : Felt) :
    starknet_account provider signer address chain_id =
      { provider := provider, signer := signer, address := address,
        chain_id := chain_id, encoding := ExecutionEncoding.New }
    ∧ (starknet_account provider signer address chain_id).encoding = ExecutionEncoding.New :=
  ⟨rfl, rfl⟩

/-- Claim C6: the transaction submitter signs and submits the entire
ordered call list in one single send — its trace is exactly one
submission carrying the whole list — and a run performs at most one
submission attempt; any submission a run does perform carries the full
single-call list that `main` built, and is its run's only one. -/
theorem claim_C6 (w : World) (account : SingleOwnerAccount) (calls : List Call) :
    (starknet_call w account calls).1 = [Event.networkSend calls]
    ∧ (sendsOf (mainRun w).trace).length ≤ 1
    ∧ (∀ c, Event.networkSend c ∈ (mainRun w).trace →
        (∃ ca, c = mintCall ca) ∧ sendsOf (mainRun w).trace = [c]) := by
  refine ⟨rfl, ?_, ?_⟩
  · rcases mainRun_shape w with ⟨-, -, hs, -⟩ | ⟨e, ca, -, -, hs, -⟩ | ⟨h, ca, -, -, hs, -⟩ <;>
      rw [hs] <;> norm_num
  · intro c hc
    have hmem := mem_sendsOf _ _ hc
    rcases mainRun_shape w with ⟨-, -, hs, -⟩ | ⟨e, ca, -, -, hs, -⟩ | ⟨h, ca, -, -, hs, -⟩
    · rw [hs] at hmem
      exact absurd hmem (List.not_mem_nil c)
    · rw [hs] at hmem
      rw [List.mem_singleton] at hmem
      exact ⟨⟨ca, hmem⟩, by rw [hs, hmem]⟩
    · rw [hs] at hmem
      rw [List.mem_singleton] at hmem
      exact ⟨⟨ca, hmem⟩, by rw [hs, hmem]⟩

set_option maxRecDepth 10000 in
/-- Witness for C6: in the stub scenario the one submission carries the
full single-call list targeting contract `0x3`. -/
theorem claim_C6_witness :
    (starknet_call wAllValid
        (starknet_account { transport := { url := "https://stub.local/rpc" } }
          { key := { secret_scalar := 1 } } 2 SEPOLIA) (mintCall 3)).1 =
      [Event.networkSend (mintCall 3)]
    ∧ sendsOf (mainRun wAllValid).trace = [mintCall 3] := by
  have h := claim_C6 wAllValid
    (starknet_account { transport := { url := "https://stub.local/rpc" } }
      { key := { secret_scalar := 1 } } 2 SEPOLIA) (mintCall 3)
  exact ⟨h.1, (h.2.2 (mintCall 3) (by decide)).2⟩

/-- Claim C7: when the network rejects the broadcast (or submission
otherwise fails), the run terminates with a fatal nonzero exit, made
exactly one submission attempt (no retry), and prints no transaction
identifier line. -/
theorem claim_C7 (w : World) (e : String)
    (hb : (mainRun w).broadcast = some (Except.error e)) :
    (mainRun w).exitCode = 101 ∧ (mainRun w).exitCode ≠ 0
    ∧ stdoutOf (mainRun w).trace = []
    ∧ (sendsOf (mainRun w).trace).length = 1 := by
  rcases mainRun_shape w with ⟨hb2, -, -, -⟩ | ⟨e2, ca, hb2, he, hs, hstd⟩ | ⟨h2, ca, hb2, -, -, -⟩
  · rw [hb] at hb2
    exact Option.noConfusion hb2
  · exact ⟨he, by rw [he]; norm_num, hstd, by rw [hs]; rfl⟩
  · rw [hb] at hb2
    rw [Option.some_inj] at hb2
    exact Except.noConfusion hb2

set_option maxRecDepth 10000 in
/-- Witness for C7: a node that rejects the broadcast makes the run exit
fatally with exactly one attempt and no output. -/
theorem claim_C7_witness :
    (mainRun wSendFail).exitCode = 101 ∧ stdoutOf (mainRun wSendFail).trace = []
    ∧ (sendsOf (mainRun wSendFail).trace).length = 1 := by
  have h := claim_C7 wSendFail "node rejected the transaction" (by rfl)
  exact ⟨h.1, h.2.2.1, h.2.2.2⟩

/-- Claim C8: the process exit code is 0 or the fatal 101; it is 0
exactly when a successful broadcast's identifier line was printed, and
every nonzero exit prints nothing: no run exits 0 without having printed
the identifier. -/
theorem claim_C8 (w : World) :
    ((mainRun w).exitCode = 0 ∨ (mainRun w).exitCode = 101)
    ∧ ((mainRun w).exitCode = 0 ↔
        ∃ h, (mainRun w).broadcast = some (Except.ok h) ∧
          stdoutOf (mainRun w).trace = [txHashLine h])
    ∧ ((mainRun w).exitCode ≠ 0 → stdoutOf (mainRun w).trace = []) := by
  rcases mainRun_shape w with ⟨hb, he, -, hstd⟩ | ⟨e, ca, hb, he, -, hstd⟩ |
    ⟨h, ca, hb, he, -, hstd⟩
  · refine ⟨Or.inr he, ?_, fun _ => hstd⟩
    rw [he, hb]
    simp
  · refine ⟨Or.inr he, ?_, fun _ => hstd⟩
    rw [he, hb]
    simp
  · refine ⟨Or.inl he, ?_, fun hne => absurd he hne⟩
    rw [he, hb, hstd]
    constructor
    · intro _
      exact ⟨h, rfl, rfl⟩
    · intro _
      rfl

set_option maxRecDepth 10000 in
/-- Witness for C8: the stub success run exits 0 having printed exactly
the identifier line. -/
theorem claim_C8_witness :
    ∃ h, (mainRun wAllValid).broadcast = some (Except.ok h) ∧
      stdoutOf (mainRun wAllValid).trace = [txHashLine h] :=
  (claim_C8 wAllValid).2.1.mp (by rfl)

/-- Claim C9: stdout is a function of the broadcast result alone — two
runs with the same broadcast outcome print the same lines, whatever
their secret scalars — and stdout only ever contains transaction-hash
lines, never the secret. -/
theorem claim_C9 (w1 w2 : World)
    (hb : (mainRun w1).broadcast = (mainRun w2).broadcast) :
    stdoutOf (mainRun w1).trace = stdoutOf (mainRun w2).trace
    ∧ (∀ s ∈ stdoutOf (mainRun w1).trace, ∃ h, s = txHashLine h) := by
  have h1 := stdoutOf_eq_of_broadcast w1
  have h2 := stdoutOf_eq_of_broadcast w2
  rw [h1, h2, hb]
  refine ⟨rfl, ?_⟩
  intro s hs
  rcases hbr : (mainRun w2).broadcast with - | r
  · rw [hbr] at hs
    simp at hs
  · rcases r with e | h
    · rw [hbr] at hs
      simp at hs
    · rw [hbr] at hs
      simp only [List.mem_singleton] at hs
      exact ⟨h, hs⟩

set_option maxRecDepth 10000 in
/-- Witness for C9: two runs differing only in the private key, whose
network accepts with the same hash, print identical stdout. -/
theorem claim_C9_witness :
    stdoutOf (mainRun wAllValid).trace = stdoutOf (mainRun wOtherSecret).trace :=
  (claim_C9 wAllValid wOtherSecret (by rfl)).1

/-- Claim C10: with a valid context but a missing or malformed
`STARKNET_CONTRACT_ADDRESS`, the run is exactly: three context
environment reads, account construction, the contract-address read, then
fatal termination — context assembly and account construction succeed
first, and no call encoding or network submission ever happens. -/
theorem claim_C10 (w : World) (hu : urlOk w) (hk : keyOk w) (ha : addrOk w)
    (hc : ¬contractOk w) :
    mainRun w =
      { trace := [Event.envRead "STARKNET_RPC_URL", Event.envRead "STARKNET_PRIVATE_KEY",
                  Event.envRead "STARKNET_ACCOUNT_ADDRESS", Event.accountBuilt,
                  Event.envRead "STARKNET_CONTRACT_ADDRESS"],
        broadcast := none, exitCode := 101 } := by
  obtain ⟨u, hu1, hu2⟩ := hu
  obtain ⟨k, kv, hk1, hk2⟩ := hk
  obtain ⟨a, av, ha1, ha2⟩ := ha
  have hctx := ctx_result_of_valid w u k a kv av hu1 hu2 hk1 hk2 ha1 ha2
  unfold mainRun
  rw [hctx]
  dsimp only
  rcases hca : w.env "STARKNET_CONTRACT_ADDRESS" with - | ca
  · rfl
  · dsimp only
    rcases hcf : feltFromHex ca with - | cv
    · rfl
    · exact absurd ⟨ca, cv, hca, hcf⟩ hc

/-- Witness for C10: a valid context with contract address `"zz"` gives
exactly the five-event fatal trace. -/
theorem claim_C10_witness :
    mainRun wBadContract =
      { trace := [Event.envRead "STARKNET_RPC_URL", Event.envRead "STARKNET_PRIVATE_KEY",
                  Event.envRead "STARKNET_ACCOUNT_ADDRESS", Event.accountBuilt,
                  Event.envRead "STARKNET_CONTRACT_ADDRESS"],
        broadcast := none, exitCode := 101 } := by
  refine claim_C10 wBadContract ⟨"https://stub.local/rpc", rfl, rfl⟩
    ⟨"0x1", 1, rfl, by rfl⟩ ⟨"0x2", 2, rfl, by rfl⟩ ?_
  rintro ⟨s, v, hs, hv⟩
  have hzz : some "zz" = some s := by
    rw [← hs]
    rfl
  injection hzz with hzz2
  rw [← hzz2] at hv
  have hnone : feltFromHex "zz" = none := rfl
  rw [hnone] at hv
  exact Option.noConfusion hv
